import Mathlib

/-!
# Fixed-point LUT generators: quantization and table construction

Shallow embedding of the two table generators in `pulse_gen`
(`cos_lut_gen_2048.py` and `lut_gen.py`):

* the signed SQ1.15 quantizer `quantize_sq1_15` (Python `round`, i.e.
  round-to-nearest with ties to even, then saturation, then two's-complement
  reduction `& 0xFFFF`);
* the unsigned UQ0.15 quantizer `quantize_uq0_15`
  (`floor(y*scale + 0.5)`, then clamping into `[0, 0x7FFF]`);
* the address-to-real mappings `addr / 2048` and `addr / 64`;
* the two table builds over `cos(2*pi*turns)` and `exp(-x)`.

The quantizers are polymorphic over a `LinearOrderedField` with a `FloorRing`
so that the same definition serves exact rational inputs (computable, used for
concrete evaluations) and the real-valued table pipeline (`Real.cos`,
`Real.exp`).
-/

namespace PulseGen

/-! ## Constants (module-level constants of both generators) -/

def N_COS : ℕ := 2048
def N_EXP : ℕ := 1024
def FRAC_IN : ℕ := 6
def FRAC_OUT : ℕ := 15
def SCALE_OUT : ℤ := 1 <<< FRAC_OUT
def MAX_SQ1_15 : ℤ := 0x7FFF
def MIN_SQ1_15 : ℤ := -0x8000
def MAX_UQ0_15 : ℤ := 0x7FFF

theorem SCALE_OUT_eq : SCALE_OUT = 32768 := rfl

variable {α : Type*} [LinearOrderedField α] [FloorRing α]

/-! ## Rounding primitives -/

/-- Python's built-in `round` on a real value: round to nearest, ties to the
even integer (banker's rounding).  This is what
`int(round(y * SCALE_OUT))` in `quantize_sq1_15` computes; the source comment
itself notes "bankers on .5". -/
def pyRound (z : α) : ℤ :=
  if z - ⌊z⌋ < 1/2 then ⌊z⌋
  else if 1/2 < z - ⌊z⌋ then ⌊z⌋ + 1
  else if ⌊z⌋ % 2 = 0 then ⌊z⌋ else ⌊z⌋ + 1

/-- Round half away from zero, the rounding rule the spec text mandates
(§4.3).  Stated from the spec's words, for comparison with the source's
`pyRound`; it is NOT what the source implements. -/
def roundHalfAwayFromZero (z : α) : ℤ :=
  if 0 ≤ z then ⌊z + 1/2⌋ else -⌊-z + 1/2⌋

/-! ## Quantizers -/

/-- Saturation step of `quantize_sq1_15`: clamp above `MAX_SQ1_15`, then
below `MIN_SQ1_15` (the order used by the source). -/
def satSq (q : ℤ) : ℤ :=
  let q1 := if q > MAX_SQ1_15 then MAX_SQ1_15 else q
  if q1 < MIN_SQ1_15 then MIN_SQ1_15 else q1

/-- `quantize_sq1_15` from `cos_lut_gen_2048.py`: quantize `y` to signed
SQ1.15 and return the 16-bit two's-complement bit pattern
(`q & 0xFFFF`, i.e. `q mod 2^16`, a value in `0..65535`). -/
def quantize_sq1_15 (y : α) : ℤ :=
  satSq (pyRound (y * (SCALE_OUT : α))) % 65536

/-- `quantize_uq0_15` from `lut_gen.py`: `q = floor(y*scale + 0.5)`, clamp
below at `0`, then above at `MAX_UQ0_15`. -/
def quantize_uq0_15 (y : α) : ℤ :=
  let q := ⌊y * (SCALE_OUT : α) + 1/2⌋
  let q1 := if q < 0 then 0 else q
  if q1 > MAX_UQ0_15 then MAX_UQ0_15 else q1

/-- Variant clamp stated from the claim's words (`max_code = 2^total_bits - 1
= 65535`), for comparison with the source's `quantize_uq0_15` which clamps at
`0x7FFF`. -/
def quantize_uq0_15_claimClamp (y : α) : ℤ :=
  min (max ⌊y * (SCALE_OUT : α) + 1/2⌋ 0) 65535

/-! ## Address-to-real mappings (inline in each generator's `main`) -/

/-- Cosine generator: `phase_turns = addr / float(N)`, `N = 2048`.  Total on
all of `ℤ`: the source performs no range check. -/
def cosAddrToReal (a : ℤ) : ℚ := a / 2048

/-- Exponential generator: `x = addr / float(1 << FRAC_IN)`, i.e.
`addr / 64`.  Total on all of `ℤ`: the source performs no range check. -/
def expAddrToReal (a : ℤ) : ℚ := a / 64

/-- Modelled from the spec: the checked AddressMapper of §4.1, which fails
with `DomainError` (here `none`) for an address outside
`[0, address_count)`.  No such component exists in the source; this follows
the spec's words for comparison with the source's unchecked mappings. -/
def addrToRealChecked (count : ℤ) (f : ℤ → ℚ) (a : ℤ) : Option ℚ :=
  if 0 ≤ a ∧ a < count then some (f a) else none

/-! ## Table builds -/

/-- One entry of the cosine table:
`quantize_sq1_15(cos(2*pi*(addr/2048)))`. -/
noncomputable def cosTableWord (a : ℕ) : ℤ :=
  quantize_sq1_15 (Real.cos (2 * Real.pi * ((cosAddrToReal a : ℚ) : ℝ)))

/-- One entry of the exponential table:
`quantize_uq0_15(exp(-(addr/64)))`. -/
noncomputable def expTableWord (a : ℕ) : ℤ :=
  quantize_uq0_15 (Real.exp (-((expAddrToReal a : ℚ) : ℝ)))

/-- The cosine table build: `for addr in range(2048): vals.append(...)`,
keeping the address with each emitted word. -/
noncomputable def cosTable : List (ℤ × ℤ) :=
  (List.range N_COS).map fun (a : ℕ) => ((a : ℤ), cosTableWord a)

/-- The exponential table build: `for addr in range(1024)`. -/
noncomputable def expTable : List (ℤ × ℤ) :=
  (List.range N_EXP).map fun (a : ℕ) => ((a : ℤ), expTableWord a)

/-- Decode a 16-bit two's-complement word back to the signed integer it
encodes. -/
def decodeSigned (w : ℤ) : ℤ :=
  if 32768 ≤ w then w - 65536 else w

/-! ## Helper lemmas about the rounding primitives -/

theorem pyRound_intCast (n : ℤ) : pyRound ((n : α)) = n := by
  have h : ⌊(n : α)⌋ = n := Int.floor_intCast n
  unfold pyRound
  rw [h]
  norm_num

theorem abs_pyRound_sub_le (z : α) : |(pyRound z : α) - z| ≤ 1/2 := by
  have h0 : (⌊z⌋ : α) ≤ z := Int.floor_le z
  have h1 : z < ⌊z⌋ + 1 := Int.lt_floor_add_one z
  unfold pyRound
  split_ifs <;> rw [abs_le] <;> constructor <;> push_cast <;> linarith

theorem pyRound_tie (k : ℤ) : pyRound ((k : α) + 1/2) = if k % 2 = 0 then k else k + 1 := by
  have hfl : ⌊(k : α) + 1/2⌋ = k := by
    rw [Int.floor_eq_iff]
    constructor <;> push_cast <;> norm_num
  unfold pyRound
  rw [hfl]
  norm_num

/-- The two clamping steps of `quantize_sq1_15`, as one `max`/`min`. -/
theorem satSq_eq (q : ℤ) : satSq q = max (min q 32767) (-32768) := by
  simp only [satSq, MAX_SQ1_15, MIN_SQ1_15]
  split_ifs <;> omega

theorem satSq_le (q : ℤ) : -32768 ≤ satSq q ∧ satSq q ≤ 32767 := by
  rw [satSq_eq]; omega

/-- Two's-complement reduction round-trips on the representable range. -/
theorem decodeSigned_emod (q : ℤ) (h1 : -32768 ≤ q) (h2 : q ≤ 32767) :
    decodeSigned (q % 65536) = q := by
  unfold decodeSigned
  split_ifs <;> omega

/-- The two clamping steps of `quantize_uq0_15`, as one `max`/`min`. -/
theorem quantize_uq0_15_eq (y : α) :
    quantize_uq0_15 y = min (max ⌊y * (SCALE_OUT : α) + 1/2⌋ 0) 32767 := by
  simp only [quantize_uq0_15, MAX_UQ0_15]
  split_ifs <;> omega

theorem quantize_uq0_15_mono {x y : α} (h : x ≤ y) :
    quantize_uq0_15 x ≤ quantize_uq0_15 y := by
  rw [quantize_uq0_15_eq, quantize_uq0_15_eq]
  have hs : (0 : α) < (SCALE_OUT : α) := by
    rw [SCALE_OUT_eq]; norm_num
  have : ⌊x * (SCALE_OUT : α) + 1/2⌋ ≤ ⌊y * (SCALE_OUT : α) + 1/2⌋ := by
    apply Int.floor_le_floor
    have := mul_le_mul_of_nonneg_right h (le_of_lt hs)
    linarith
  omega

theorem SCALE_OUT_cast : ((SCALE_OUT : ℤ) : α) = 32768 := by
  rw [SCALE_OUT_eq]; norm_num

/-! ## Error bounds for the real-valued pipeline -/

/-- Rounding then saturating a value of magnitude at most `2^15` moves it by
at most `3/2`: a half LSB of rounding plus one LSB of saturation slack. -/
theorem satSq_pyRound_err (z : ℝ) (hz1 : -32768 ≤ z) (hz2 : z ≤ 32768) :
    |(satSq (pyRound z) : ℝ) - z| ≤ 3/2 := by
  have hr := abs_pyRound_sub_le z
  rw [abs_le] at hr
  have hub : pyRound z ≤ 32768 := by
    have h : (pyRound z : ℝ) < 32769 := by linarith
    exact_mod_cast Int.lt_add_one_iff.mp (by exact_mod_cast h)
  have hlb : -32768 ≤ pyRound z := by
    have h : (-32769 : ℝ) < (pyRound z : ℝ) := by linarith
    have : (-32769 : ℤ) < pyRound z := by exact_mod_cast h
    omega
  by_cases htop : pyRound z ≤ 32767
  · have hs : satSq (pyRound z) = pyRound z := by
      rw [satSq_eq]; omega
    rw [hs, abs_le]
    constructor <;> linarith
  · have hq : pyRound z = 32768 := by omega
    have hs : satSq (pyRound z) = 32767 := by
      rw [satSq_eq]; omega
    have hz : (32767.5 : ℝ) ≤ z := by
      have : (pyRound z : ℝ) = 32768 := by exact_mod_cast hq
      linarith
    rw [hs, abs_le]
    constructor <;> norm_num <;> linarith

/-- The unsigned quantizer moves `y * 2^15` by at most `3/2` for `y` in
`[0, 1]`: half an LSB of rounding plus one LSB of saturation slack at the
top rail. -/
theorem quantize_uq0_15_err (y : ℝ) (h0 : 0 ≤ y) (h1 : y ≤ 1) :
    |(quantize_uq0_15 y : ℝ) - y * 32768| ≤ 3/2 := by
  rw [quantize_uq0_15_eq, SCALE_OUT_cast]
  set z : ℝ := y * 32768 with hz
  have hz0 : 0 ≤ z := by positivity
  have hz1 : z ≤ 32768 := by rw [hz]; nlinarith
  have hfl : (⌊z + 1/2⌋ : ℝ) ≤ z + 1/2 := Int.floor_le _
  have hfl2 : z + 1/2 < ⌊z + 1/2⌋ + 1 := Int.lt_floor_add_one _
  have hq0 : 0 ≤ ⌊z + 1/2⌋ := Int.floor_nonneg.mpr (by linarith)
  have hqub : ⌊z + 1/2⌋ ≤ 32768 := by
    have h : (⌊z + 1/2⌋ : ℝ) < 32769 := by linarith
    exact_mod_cast Int.lt_add_one_iff.mp (by exact_mod_cast h)
  by_cases htop : ⌊z + 1/2⌋ ≤ 32767
  · have hmin : min (max ⌊z + 1/2⌋ 0) 32767 = ⌊z + 1/2⌋ := by omega
    rw [hmin, abs_le]
    constructor <;> linarith
  · have hq : ⌊z + 1/2⌋ = 32768 := by omega
    have hmin : min (max ⌊z + 1/2⌋ 0) 32767 = 32767 := by omega
    have hzlo : (32767.5 : ℝ) ≤ z := by
      have : (⌊z + 1/2⌋ : ℝ) = 32768 := by exact_mod_cast hq
      linarith
    rw [hmin, abs_le]
    constructor <;> norm_num <;> linarith

/-- When `y * 2^15` is exactly an integer `n`, the signed quantizer reduces
to saturation and two's-complement encoding of `n`. -/
theorem quantize_sq1_15_intVal (y : α) (n : ℤ) (h : y * ((SCALE_OUT : ℤ) : α) = (n : α)) :
    quantize_sq1_15 y = satSq n % 65536 := by
  unfold quantize_sq1_15
  rw [h, pyRound_intCast]

/-- Decoding the full signed pipeline recovers the value within `1.5` LSB
for `y` in `[-1, 1]`. -/
theorem sq_pipeline_roundtrip (y : ℝ) (hy1 : -1 ≤ y) (hy2 : y ≤ 1) :
    |(decodeSigned (quantize_sq1_15 y) : ℝ) / 32768 - y| ≤ 1.5 / 32768 := by
  have herr := satSq_pyRound_err (y * 32768) (by linarith) (by linarith)
  have hb := satSq_le (pyRound (y * 32768))
  have hdec : decodeSigned (quantize_sq1_15 y) = satSq (pyRound (y * 32768)) := by
    unfold quantize_sq1_15
    rw [SCALE_OUT_cast]
    exact decodeSigned_emod _ hb.1 hb.2
  rw [hdec, abs_le]
  rw [abs_le] at herr
  constructor <;> linarith

/-- The unsigned pipeline (whose word is the code itself) recovers the value
within `1.5` LSB for `y` in `[0, 1]`. -/
theorem uq_pipeline_roundtrip (y : ℝ) (h0 : 0 ≤ y) (h1 : y ≤ 1) :
    |(quantize_uq0_15 y : ℝ) / 32768 - y| ≤ 1.5 / 32768 := by
  have herr := quantize_uq0_15_err y h0 h1
  rw [abs_le] at herr ⊢
  constructor <;> linarith

/-! ## Concrete table entries -/

theorem cosTableWord_0 : cosTableWord 0 = 0x7FFF := by
  unfold cosTableWord
  have h : ((cosAddrToReal ((0 : ℕ) : ℤ) : ℚ) : ℝ) = 0 := by norm_num [cosAddrToReal]
  rw [h, mul_zero, Real.cos_zero]
  rw [quantize_sq1_15_intVal (1 : ℝ) 32768 (by rw [SCALE_OUT_cast]; norm_num)]
  decide

theorem cosTableWord_512 : cosTableWord 512 = 0 := by
  unfold cosTableWord
  have h : ((cosAddrToReal ((512 : ℕ) : ℤ) : ℚ) : ℝ) = 1/4 := by norm_num [cosAddrToReal]
  have h2 : 2 * Real.pi * (1/4 : ℝ) = Real.pi / 2 := by ring
  rw [h, h2, Real.cos_pi_div_two]
  rw [quantize_sq1_15_intVal (0 : ℝ) 0 (by norm_num)]
  decide

theorem cosTableWord_1024 : cosTableWord 1024 = 0x8000 := by
  unfold cosTableWord
  have h : ((cosAddrToReal ((1024 : ℕ) : ℤ) : ℚ) : ℝ) = 1/2 := by norm_num [cosAddrToReal]
  have h2 : 2 * Real.pi * (1/2 : ℝ) = Real.pi := by ring
  rw [h, h2, Real.cos_pi]
  rw [quantize_sq1_15_intVal (-1 : ℝ) (-32768) (by rw [SCALE_OUT_cast]; norm_num)]
  decide

theorem cosTableWord_1536 : cosTableWord 1536 = 0 := by
  unfold cosTableWord
  have h : ((cosAddrToReal ((1536 : ℕ) : ℤ) : ℚ) : ℝ) = 3/4 := by norm_num [cosAddrToReal]
  have h2 : 2 * Real.pi * (3/4 : ℝ) = 2 * Real.pi - Real.pi / 2 := by ring
  rw [h, h2, Real.cos_two_pi_sub, Real.cos_pi_div_two]
  rw [quantize_sq1_15_intVal (0 : ℝ) 0 (by norm_num)]
  decide

theorem expTableWord_0 : expTableWord 0 = 0x7FFF := by
  unfold expTableWord
  have h : ((expAddrToReal ((0 : ℕ) : ℤ) : ℚ) : ℝ) = 0 := by norm_num [expAddrToReal]
  rw [h, neg_zero, Real.exp_zero]
  rw [quantize_uq0_15_eq, SCALE_OUT_cast]
  have hfl : ⌊(1 : ℝ) * 32768 + 1/2⌋ = 32768 := by norm_num
  rw [hfl]
  decide

/-- The scaled rounding of `e^-1`: with `0.36787944116 < e^-1 < 0.3678794412`
we get `e^-1 * 2^15 + 1/2` in `[12055.17, 12055.18]`, whose floor is
`12055 = 0x2F17`. -/
theorem exp_neg_one_scaled_floor : ⌊Real.exp (-1) * 32768 + 1/2⌋ = 12055 := by
  have he1 : Real.exp (-1) < 0.3678794412 := Real.exp_neg_one_lt_d9
  have he2 : 0.36787944116 < Real.exp (-1) := Real.exp_neg_one_gt_d9
  rw [Int.floor_eq_iff]
  constructor <;> push_cast <;> linarith

theorem expTableWord_64 : expTableWord 64 = 12055 := by
  unfold expTableWord
  have h : ((expAddrToReal ((64 : ℕ) : ℤ) : ℚ) : ℝ) = 1 := by norm_num [expAddrToReal]
  rw [h, quantize_uq0_15_eq, SCALE_OUT_cast, exp_neg_one_scaled_floor]
  decide

/-! ## Claims -/

/-- C1 (counterexample): the claim says `raw = round_half_away_from_zero(y *
scale)`, which at `y = 5/65536` (so `y * scale = 2.5`) gives `3`, and after
saturation and encoding the emitted code would be `3`; the source's quantizer
emits `2` there, because Python's `round` ties to even. -/
theorem C1_counterexample :
    quantize_sq1_15 ((5 : ℝ)/65536) = 2 ∧
    roundHalfAwayFromZero (((5 : ℝ)/65536) * ((SCALE_OUT : ℤ) : ℝ)) = 3 ∧
    satSq 3 % 65536 = 3 := by
  refine ⟨?_, ?_, by decide⟩
  · norm_num [quantize_sq1_15, pyRound, satSq, SCALE_OUT_cast, MAX_SQ1_15, MIN_SQ1_15]
  · norm_num [roundHalfAwayFromZero, SCALE_OUT_cast]

/-- C1 (amended): for every real `y`, the signed-mode quantizer computes
`raw = round_half_to_even(y * scale)` (Python's banker's rounding): at exact
`.5` tie boundaries the rounding goes to the even neighbour, symmetrically
for positive and negative `y` (`y*scale = 2.5` rounds to `2` and
`y*scale = -2.5` rounds to `-2`, i.e. word `65534`), before saturation and
two's-complement encoding are applied. -/
theorem C1_signed_ties_to_even :
    (∀ (y : ℝ) (k : ℤ), y * ((SCALE_OUT : ℤ) : ℝ) = (k : ℝ) + 1/2 →
      quantize_sq1_15 y = satSq (if k % 2 = 0 then k else k + 1) % 65536) ∧
    quantize_sq1_15 ((5 : ℝ)/65536) = 2 ∧
    quantize_sq1_15 (-(5 : ℝ)/65536) = 65534 := by
  refine ⟨fun y k h => ?_, ?_, ?_⟩
  · unfold quantize_sq1_15
    rw [h, pyRound_tie]
  · norm_num [quantize_sq1_15, pyRound, satSq, SCALE_OUT_cast, MAX_SQ1_15, MIN_SQ1_15]
  · norm_num [quantize_sq1_15, pyRound, satSq, SCALE_OUT_cast, MAX_SQ1_15, MIN_SQ1_15]

/-- C1 (witness): the tie rule of `C1_signed_ties_to_even` instantiated at
`y = 5/65536`, `k = 2` (`y * scale = 2.5`). -/
theorem C1_signed_ties_to_even_witness :
    ((5 : ℝ)/65536) * ((SCALE_OUT : ℤ) : ℝ) = ((2 : ℤ) : ℝ) + 1/2 ∧
    quantize_sq1_15 ((5 : ℝ)/65536) = satSq (if (2 : ℤ) % 2 = 0 then 2 else 2 + 1) % 65536 :=
  ⟨by rw [SCALE_OUT_cast]; norm_num,
   C1_signed_ties_to_even.1 (5/65536) 2 (by rw [SCALE_OUT_cast]; norm_num)⟩

/-- C2: quantizing `1.0` in signed SQ1.15 saturates: the raw rounded value is
`2^15 = 32768`, one past `MAX_SQ1_15 = 32767`, and is clamped to `0x7FFF`;
quantizing `-1.0` gives raw `-32768 = MIN_SQ1_15` exactly (no clamping
needed) and encodes as `0x8000`. -/
theorem C2_signed_saturation_asymmetry :
    quantize_sq1_15 (1 : ℝ) = 0x7FFF ∧
    quantize_sq1_15 (-1 : ℝ) = 0x8000 ∧
    pyRound ((1 : ℝ) * ((SCALE_OUT : ℤ) : ℝ)) = 32768 ∧
    MAX_SQ1_15 < 32768 ∧
    pyRound ((-1 : ℝ) * ((SCALE_OUT : ℤ) : ℝ)) = MIN_SQ1_15 ∧
    satSq MIN_SQ1_15 = MIN_SQ1_15 := by
  refine ⟨?_, ?_, ?_, by decide, ?_, by decide⟩ <;>
    norm_num [quantize_sq1_15, pyRound, satSq, SCALE_OUT_cast, MAX_SQ1_15, MIN_SQ1_15]

/-- C3 (counterexample): at `y = 1.0` the raw value `floor(1.0*32768 + 0.5) =
32768` lies in `[0, 65535]`, so under the claim's bound
(`max_code = 2^total_bits - 1 = 65535`) it would pass through unclamped; the
source's quantizer clamps at `0x7FFF` and returns `32767`. -/
theorem C3_counterexample :
    quantize_uq0_15 (1 : ℝ) = 32767 ∧
    quantize_uq0_15_claimClamp (1 : ℝ) = 32768 := by
  constructor
  · norm_num [quantize_uq0_15, SCALE_OUT_cast, MAX_UQ0_15]
  · norm_num [quantize_uq0_15_claimClamp, SCALE_OUT_cast]

/-- C3 (amended): for every real `y >= 0`, the unsigned-mode quantizer output
equals `raw = floor(y*scale + 0.5)` clamped into `[0, max_code]` with
`max_code = 2^15 - 1 = 32767` (the top bit is reserved); any raw value in
`[0, 32767]` passes through unclamped. -/
theorem C3_unsigned_clamp_bound :
    (∀ y : ℝ, 0 ≤ y →
      quantize_uq0_15 y = min ⌊y * ((SCALE_OUT : ℤ) : ℝ) + 1/2⌋ 32767) ∧
    (∀ y : ℝ, 0 ≤ y → ⌊y * ((SCALE_OUT : ℤ) : ℝ) + 1/2⌋ ≤ 32767 →
      quantize_uq0_15 y = ⌊y * ((SCALE_OUT : ℤ) : ℝ) + 1/2⌋) := by
  have hs : (0 : ℝ) ≤ ((SCALE_OUT : ℤ) : ℝ) := by rw [SCALE_OUT_cast]; norm_num
  have key : ∀ y : ℝ, 0 ≤ y →
      quantize_uq0_15 y = min ⌊y * ((SCALE_OUT : ℤ) : ℝ) + 1/2⌋ 32767 := by
    intro y hy
    rw [quantize_uq0_15_eq]
    have h0 : 0 ≤ ⌊y * ((SCALE_OUT : ℤ) : ℝ) + 1/2⌋ := by
      apply Int.floor_nonneg.mpr
      have := mul_nonneg hy hs
      linarith
    omega
  exact ⟨key, fun y hy hle => by rw [key y hy]; omega⟩

/-- C3 (witness): at `y = 1/2` the raw value `16384` is within `[0, 32767]`
and passes through unclamped. -/
theorem C3_unsigned_clamp_bound_witness :
    quantize_uq0_15 ((1 : ℝ)/2) = ⌊(1 : ℝ)/2 * ((SCALE_OUT : ℤ) : ℝ) + 1/2⌋ ∧
    quantize_uq0_15 ((1 : ℝ)/2) = 16384 :=
  ⟨C3_unsigned_clamp_bound.2 (1/2) (by norm_num) (by rw [SCALE_OUT_cast]; norm_num),
   by norm_num [quantize_uq0_15, SCALE_OUT_cast, MAX_UQ0_15]⟩

/-- C4: for every address in either built table, decoding the emitted word
back to a real value (`code / scale`) lies within `1.5 / scale` of the true
function value at the address's mapped real input (half an LSB of rounding
plus at most one LSB of saturation slack at the rails). -/
theorem C4_roundtrip_bound :
    (∀ a : ℕ, a < N_COS →
      |(decodeSigned (cosTableWord a) : ℝ) / 32768 -
        Real.cos (2 * Real.pi * ((cosAddrToReal a : ℚ) : ℝ))| ≤ 1.5 / 32768) ∧
    (∀ a : ℕ, a < N_EXP →
      |(expTableWord a : ℝ) / 32768 -
        Real.exp (-((expAddrToReal a : ℚ) : ℝ))| ≤ 1.5 / 32768) := by
  constructor
  · intro a _
    unfold cosTableWord
    exact sq_pipeline_roundtrip _ (Real.neg_one_le_cos _) (Real.cos_le_one _)
  · intro a _
    unfold expTableWord
    have hx : (0 : ℝ) ≤ ((expAddrToReal a : ℚ) : ℝ) := by
      simp only [expAddrToReal]
      push_cast
      positivity
    exact uq_pipeline_roundtrip _ (Real.exp_pos _).le
      (Real.exp_le_one_iff.mpr (by linarith))

/-- C4 (witness): the round-trip bound instantiated at address `0` of each
table. -/
theorem C4_roundtrip_bound_witness :
    |(decodeSigned (cosTableWord 0) : ℝ) / 32768 -
      Real.cos (2 * Real.pi * ((cosAddrToReal ((0 : ℕ) : ℤ) : ℚ) : ℝ))| ≤ 1.5 / 32768 ∧
    |(expTableWord 0 : ℝ) / 32768 -
      Real.exp (-((expAddrToReal ((0 : ℕ) : ℤ) : ℚ) : ℝ))| ≤ 1.5 / 32768 :=
  ⟨C4_roundtrip_bound.1 0 (by norm_num [N_COS]),
   C4_roundtrip_bound.2 0 (by norm_num [N_EXP])⟩

/-- C5: quantizing `1.0` in unsigned UQ0.15 yields `0x7FFF`, never `0x8000`
or higher (the most-significant bit stays zero); consequently the
exponential table's entry at address `0` (mapped input `0.0`, `e^0 = 1.0`)
is `0x7FFF`. -/
theorem C5_unsigned_top_bit :
    quantize_uq0_15 (1 : ℝ) = 0x7FFF ∧
    quantize_uq0_15 (1 : ℝ) < 0x8000 ∧
    expTableWord 0 = 0x7FFF := by
  have h1 : quantize_uq0_15 (1 : ℝ) = 32767 := by
    norm_num [quantize_uq0_15, SCALE_OUT_cast, MAX_UQ0_15]
  exact ⟨h1, by rw [h1]; decide, expTableWord_0⟩

/-- C6: the four quarter-turn addresses of the cosine table produce exactly
the codes `0x7FFF` (address `0`, `cos = 1`), `0x0000` (address `512`,
`cos(pi/2) = 0`), `0x8000` (address `1024`, `cos(pi) = -1`) and `0x0000`
(address `1536`, `cos(3*pi/2) = 0`). -/
theorem C6_quarter_turns :
    cosTableWord 0 = 0x7FFF ∧ cosTableWord 512 = 0x0000 ∧
    cosTableWord 1024 = 0x8000 ∧ cosTableWord 1536 = 0x0000 :=
  ⟨cosTableWord_0, cosTableWord_512, cosTableWord_1024, cosTableWord_1536⟩

/-- C7 (counterexample): the exponential table's entry at address `64` is
`12055 = 0x2F17`, not `0x2F1B = 12059` as the claim states. -/
theorem C7_counterexample : expTableWord 64 ≠ 0x2F1B := by
  rw [expTableWord_64]
  decide

/-- C7 (amended): address `64` maps to real input `1.0` and its entry's
quantized code equals `round(e^-1 * 32768) = floor(e^-1 * 32768 + 1/2) =
0x2F17`. -/
theorem C7_addr64_code :
    expAddrToReal 64 = 1 ∧
    expTableWord 64 = 0x2F17 ∧
    expTableWord 64 = ⌊Real.exp (-1) * ((SCALE_OUT : ℤ) : ℝ) + 1/2⌋ := by
  refine ⟨by norm_num [expAddrToReal], by rw [expTableWord_64], ?_⟩
  rw [SCALE_OUT_cast, exp_neg_one_scaled_floor, expTableWord_64]

/-- C8 (counterexample): the source's address-to-real mappings perform no
range check: applied to the out-of-range address `2048` (resp. `1024`), they
silently compute the real value `1` (resp. `16`), whereas the spec's checked
mapper fails (`none`, standing for `DomainError`) there. -/
theorem C8_counterexample :
    cosAddrToReal 2048 = 1 ∧
    addrToRealChecked 2048 cosAddrToReal 2048 = none ∧
    expAddrToReal 1024 = 16 ∧
    addrToRealChecked 1024 expAddrToReal 1024 = none := by
  refine ⟨by norm_num [cosAddrToReal], ?_, by norm_num [expAddrToReal], ?_⟩ <;>
    norm_num [addrToRealChecked]

/-- C8 (amended): the code's address-to-real mappings are total and
unchecked — `a / 2048` (cosine) and `a / 64` (exponential) for every integer
address, with no `DomainError` path; they agree with the spec's checked
mapper on the declared domain `[0, address_count)`, and in-range use is
guaranteed only by the builders iterating `range(address_count)`. -/
theorem C8_unchecked_mapper :
    (∀ a : ℤ, cosAddrToReal a = a / 2048 ∧ expAddrToReal a = a / 64) ∧
    (∀ a : ℤ, 0 ≤ a → a < 2048 →
      addrToRealChecked 2048 cosAddrToReal a = some (cosAddrToReal a)) ∧
    (∀ a : ℤ, 0 ≤ a → a < 1024 →
      addrToRealChecked 1024 expAddrToReal a = some (expAddrToReal a)) := by
  refine ⟨fun a => ⟨rfl, rfl⟩, fun a h1 h2 => ?_, fun a h1 h2 => ?_⟩ <;>
    simp [addrToRealChecked, h1, h2]

/-- C8 (witness): the in-range agreement of `C8_unchecked_mapper`
instantiated at address `5`. -/
theorem C8_unchecked_mapper_witness :
    addrToRealChecked 2048 cosAddrToReal 5 = some (cosAddrToReal 5) ∧
    addrToRealChecked 1024 expAddrToReal 5 = some (expAddrToReal 5) :=
  ⟨C8_unchecked_mapper.2.1 5 (by norm_num) (by norm_num),
   C8_unchecked_mapper.2.2 5 (by norm_num) (by norm_num)⟩

/-- C9: each build produces exactly `address_count` entries (`2048` cosine,
`1024` exponential), the `i`-th entry carries address `i` (so one entry per
address, no gaps, no duplicates), and the address sequence is strictly
increasing. -/
theorem C9_coverage :
    cosTable.length = N_COS ∧ expTable.length = N_EXP ∧
    (∀ i : ℕ, ∀ h : i < cosTable.length,
      cosTable.get ⟨i, h⟩ = ((i : ℤ), cosTableWord i)) ∧
    (∀ i : ℕ, ∀ h : i < expTable.length,
      expTable.get ⟨i, h⟩ = ((i : ℤ), expTableWord i)) ∧
    List.Pairwise (· < ·) (cosTable.map Prod.fst) ∧
    List.Pairwise (· < ·) (expTable.map Prod.fst) := by
  refine ⟨by simp [cosTable], by simp [expTable], ?_, ?_, ?_, ?_⟩
  · intro i h
    simp [cosTable]
  · intro i h
    simp [expTable]
  · have hmap : cosTable.map Prod.fst = (List.range N_COS).map (fun a : ℕ => (a : ℤ)) := by
      simp [cosTable, List.map_map]
    rw [hmap]
    exact List.Pairwise.map _ (fun a b hab => by exact_mod_cast hab)
      (List.pairwise_lt_range _)
  · have hmap : expTable.map Prod.fst = (List.range N_EXP).map (fun a : ℕ => (a : ℤ)) := by
      simp [expTable, List.map_map]
    rw [hmap]
    exact List.Pairwise.map _ (fun a b hab => by exact_mod_cast hab)
      (List.pairwise_lt_range _)

/-- C9 (witness): the per-index description of `C9_coverage` instantiated at
index `3` of each table. -/
theorem C9_coverage_witness :
    cosTable.get ⟨3, by norm_num [cosTable, N_COS]⟩ = (((3 : ℕ) : ℤ), cosTableWord 3) ∧
    expTable.get ⟨3, by norm_num [expTable, N_EXP]⟩ = (((3 : ℕ) : ℤ), expTableWord 3) :=
  ⟨C9_coverage.2.2.1 3 (by norm_num [cosTable, N_COS]),
   C9_coverage.2.2.2.1 3 (by norm_num [expTable, N_EXP])⟩

/-- C10: the exponential table is monotone nonincreasing: for addresses
`a <= b < 1024`, the code at `a` is at least the code at `b`, because
`e^-x` decreases in the mapped input and the unsigned quantizer is monotone
nondecreasing. -/
theorem C10_exp_table_antitone (a b : ℕ) (hab : a ≤ b) (hb : b < N_EXP) :
    expTableWord b ≤ expTableWord a := by
  unfold expTableWord
  apply quantize_uq0_15_mono
  apply Real.exp_le_exp.mpr
  apply neg_le_neg
  simp only [expAddrToReal]
  push_cast
  have hcast : (a : ℝ) ≤ (b : ℝ) := by exact_mod_cast hab
  linarith

/-- C10 (witness): `C10_exp_table_antitone` instantiated at `a = 0`,
`b = 1`. -/
theorem C10_exp_table_antitone_witness : expTableWord 1 ≤ expTableWord 0 :=
  C10_exp_table_antitone 0 1 (by norm_num) (by norm_num [N_EXP])

end PulseGen
